/-
Verification of the DICOD distributed convolutional sparse coding driver.

This file gives a shallow embedding of the coordinator-side code of the
repository (src/dicod/_dicod.py, src/dicod/dicod.py, src/cdl/dicod2d.py,
src/dicod/dicodil.py) and proves properties of it.  Machine floats are
modelled by exact rationals; numpy arrays by lists or by index functions;
the MPI transport by an explicit effect trace.  Code that only lives in
modules outside the sources (the local solver `coordinate_descent` and the
worker-side `Segmentation`) is abstracted as function parameters, so the
theorems quantify over every possible behaviour of those parts.
-/
import Mathlib

set_option linter.unusedVariables false

namespace Dicod

/-- A parameter that is either the string `'auto'` or an explicit integer
(`n_seg` and `w_world` in `dicod`). -/
inductive AutoNat
  | auto
  | val (n : ℕ)
deriving DecidableEq, Repr

/-- The argument list of `dicod` (src/dicod/_dicod.py, `def dicod`).  The
signal `X_i` and dictionary `D` are kept abstract (types `σ`, `δ`) together
with the shape information the function reads from them (`X_i.shape` is
`(n_channels, *sig_shape)` and `D.shape` is `(n_atoms, n_channels,
*atom_shape)`); `z0` is abstract of type `ζ`. -/
structure DicodArgs (σ δ ζ : Type) where
  X : σ
  nChannels : ℕ
  sigShape : List ℕ
  D : δ
  nAtoms : ℕ
  atomShape : List ℕ
  reg : ℚ
  z0 : Option ζ
  n_seg : AutoNat
  strategy : String
  use_soft_lock : Bool
  n_jobs : ℕ
  w_world : AutoNat
  hostfile : Option String
  tol : ℚ
  max_iter : ℕ
  timeout : Option ℚ
  z_positive : Bool
  return_ztz : Bool
  freeze_support : Bool
  timing : Bool
  random_state : Option ℕ
  verbose : ℕ
  debug : Bool

/-- The full argument record passed by the `n_jobs == 1` fast path of
`dicod` to the local solver `coordinate_descent` (src/dicod/_dicod.py
lines 89-94). -/
structure CDCall (σ δ ζ : Type) where
  X : σ
  D : δ
  reg : ℚ
  z0 : Option ζ
  n_seg : AutoNat
  strategy : String
  tol : ℚ
  max_iter : ℕ
  timeout : Option ℚ
  z_positive : Bool
  freeze_support : Bool
  return_ztz : Bool
  timing : Bool
  random_state : Option ℕ
  verbose : ℕ

/-- The `params` dictionary assembled by `dicod` (src/dicod/_dicod.py lines
96-102, then extended with `valid_shape` at line 107 and
`workers_topology` at lines 113-117). -/
structure TaskParams where
  strategy : String
  tol : ℚ
  max_iter : ℕ
  timeout : Option ℚ
  n_seg : AutoNat
  z_positive : Bool
  verbose : ℕ
  timing : Bool
  debug : Bool
  random_state : Option ℕ
  reg : ℚ
  return_ztz : Bool
  use_soft_lock : Bool
  has_z0 : Bool
  freeze_support : Bool
  valid_shape : List ℤ
  workers_topology : List ℕ
deriving DecidableEq, Repr

/-- The base `params` dict of src/dicod/_dicod.py lines 96-102, before the
derived keys `valid_shape` and `workers_topology` are inserted. -/
def dicodBaseParams {σ δ ζ : Type} (a : DicodArgs σ δ ζ) : TaskParams :=
  { strategy := a.strategy, tol := a.tol, max_iter := a.max_iter,
    timeout := a.timeout, n_seg := a.n_seg, z_positive := a.z_positive,
    verbose := a.verbose, timing := a.timing, debug := a.debug,
    random_state := a.random_state, reg := a.reg,
    return_ztz := a.return_ztz, use_soft_lock := a.use_soft_lock,
    has_z0 := a.z0.isSome, freeze_support := a.freeze_support,
    valid_shape := [], workers_topology := [] }

/-- `valid_shape` as computed at src/dicod/_dicod.py lines 107-110:
`size_ax - size_atom_ax + 1` on every axis of the zipped shapes. -/
def validShapeOf (sigShape atomShape : List ℕ) : List ℤ :=
  List.zipWith
    (fun (size_ax size_atom_ax : ℕ) => (size_ax : ℤ) - (size_atom_ax : ℤ) + 1)
    sigShape atomShape

/-- The tile aspect ratio `ratio = width * j / (height * i)` that
`_find_grid_size` compares against 1 for a candidate worker grid
`(w_world, h_world) = (i, j)` (src/dicod/_dicod.py line 192). -/
def gridRatio (height width i j : ℕ) : ℚ :=
  ((width * j : ℕ) : ℚ) / ((height * i : ℕ) : ℚ)

/-- One step of the divisor scan of `_find_grid_size`
(src/dicod/_dicod.py lines 188-195): for a divisor `i` of `n_jobs`,
compare the aspect ratio of the candidate grid `(i, n_jobs // i)` with
the best ratio found so far and keep the better pair.  State is
`((w_world, h_world), w_ratio)`. -/
def findGridStep (n_jobs height width : ℕ) (st : (ℕ × ℕ) × ℚ) (i : ℕ) :
    (ℕ × ℕ) × ℚ :=
  if n_jobs % i = 0 then
    if |gridRatio height width i (n_jobs / i) - 1| < |st.2 - 1| then
      ((i, n_jobs / i), gridRatio height width i (n_jobs / i))
    else st
  else st

/-- Loop invariant of the `_find_grid_size` divisor scan: the running
state holds a factorization of `n_jobs` together with its aspect ratio,
and that ratio is at least as close to 1 as the ratio of every
factorization `i * j = n_jobs` with `i ≤ m`. -/
def GridInv (n_jobs height width m : ℕ) (st : (ℕ × ℕ) × ℚ) : Prop :=
  st.1.1 * st.1.2 = n_jobs ∧
  st.2 = gridRatio height width st.1.1 st.1.2 ∧
  ∀ i j : ℕ, 1 ≤ i → i ≤ m → i * j = n_jobs →
    |st.2 - 1| ≤ |gridRatio height width i j - 1|

/-- `_find_grid_size` (src/dicod/_dicod.py lines 181-198).  For a 1D
signal it returns `(n_jobs,)`; for a 2D signal it scans the divisors
`i = 2, ..., n_jobs` of `n_jobs` starting from the candidate
`(1, n_jobs)`; other dimensions raise `NotImplementedError` (`none`). -/
def findGridSize (n_jobs : ℕ) (sigShape : List ℕ) : Option (List ℕ) :=
  match sigShape with
  | [_] => some [n_jobs]
  | [height, width] =>
    let init : (ℕ × ℕ) × ℚ := ((1, n_jobs), ((width * n_jobs : ℕ) : ℚ) / (height : ℚ))
    let st := (List.range' 2 (n_jobs - 1)).foldl (findGridStep n_jobs height width) init
    some [st.1.1, st.1.2]
  | _ => none

/-- The errors the setup phase of `dicod` can raise: the two `assert`
statements (lines 105 and 116), `NotImplementedError` from
`_find_grid_size`, and `ValueError("Using too many cores.")` from the
tile-size check at lines 124-128. -/
inductive DicodError
  | assertionError
  | notImplemented
  | tooManyCores
deriving DecidableEq, Repr

/-- The `workers_topology` computation of src/dicod/_dicod.py lines
113-117: `_find_grid_size` when `w_world == 'auto'`, otherwise the pair
`(w_world, n_jobs // w_world)` guarded by `assert n_jobs % w_world == 0`. -/
def topologyOf {σ δ ζ : Type} (a : DicodArgs σ δ ζ) : Except DicodError (List ℕ) :=
  match a.w_world with
  | .auto =>
    match findGridSize a.n_jobs a.sigShape with
    | some topo => .ok topo
    | none => .error .notImplemented
  | .val w =>
    if a.n_jobs % w = 0 then .ok [w, a.n_jobs / w] else .error .assertionError

/-- The parameter-assembly prefix of the distributed path of `dicod`
(src/dicod/_dicod.py lines 96-122): build the base `params` dict, check
`assert D.ndim - 1 == X_i.ndim`, compute `valid_shape` and
`workers_topology` and store them in `params`. -/
def dicodParams {σ δ ζ : Type} (a : DicodArgs σ δ ζ) : Except DicodError TaskParams :=
  let base := dicodBaseParams a
  if a.atomShape.length ≠ a.sigShape.length then .error .assertionError
  else
    match topologyOf a with
    | .error e => .error e
    | .ok topo =>
      .ok { base with valid_shape := validShapeOf a.sigShape a.atomShape,
                      workers_topology := topo }

/-- Observable transport-level actions of the distributed path of
`dicod`: `_spawn_workers` (line 130), `_send_task` (line 131), the two
`comm.Barrier()` calls and `_recv_result` (lines 133-138). -/
inductive DicodEffect
  | spawnWorkers (n_jobs : ℕ)
  | sendTask (params : TaskParams)
  | barrier
  | recvResult (return_ztz timing : Bool)
deriving DecidableEq, Repr

/-- Shallow embedding of `dicod` (src/dicod/_dicod.py lines 89-145).
`cd` abstracts the local solver `coordinate_descent` (whose module is not
part of the sources), `segInnerShape0` abstracts
`Segmentation(n_seg=workers_topology, signal_shape=valid_shape,
overlap=overlap).get_seg_shape(0, inner=True)`, and `distRes` abstracts
the value gathered from the workers on the distributed path.  The first
component of the result is the trace of transport effects; the second is
the returned value or the raised setup error. -/
def dicod {σ δ ζ ρ : Type} (cd : CDCall σ δ ζ → ρ)
    (segInnerShape0 : List ℕ → List ℤ → List ℕ) (distRes : ρ)
    (a : DicodArgs σ δ ζ) : List DicodEffect × Except DicodError ρ :=
  if a.n_jobs = 1 then
    ([], .ok (cd { X := a.X, D := a.D, reg := a.reg, z0 := a.z0,
                   n_seg := a.n_seg, strategy := a.strategy, tol := a.tol,
                   max_iter := a.max_iter, timeout := a.timeout,
                   z_positive := a.z_positive,
                   freeze_support := a.freeze_support,
                   return_ztz := a.return_ztz, timing := a.timing,
                   random_state := a.random_state, verbose := a.verbose }))
  else
    match dicodParams a with
    | .error e => ([], .error e)
    | .ok params =>
      let worker_valid_shape := segInnerShape0 params.workers_topology params.valid_shape
      if (a.atomShape.zip worker_valid_shape).any
          (fun q => decide ((q.2 : ℤ) ≤ 2 * (q.1 : ℤ) - 1)) then
        ([], .error .tooManyCores)
      else
        ([.spawnWorkers a.n_jobs, .sendTask params, .barrier,
          .recvResult a.return_ztz a.timing, .barrier], .ok distRes)

/-- The attribute state set up by `DICOD.__init__` (src/dicod/dicod.py
lines 45-58), restricted to the attributes read by `send_task`; the
`kwargs` consumed by the `_LassoSolver` base class (`tol`, `max_iter`,
`timeout`) and `self.pb.lmbd` are carried alongside. -/
structure DICODState where
  n_jobs : ℕ
  use_seg : ℕ
  logging : ℕ
  positive : ℕ
  algorithm : ℕ
  patience : ℕ
  debug : ℕ
  max_iter : ℕ
  tol : ℚ
  timeout : ℚ
  lmbd : ℚ
deriving DecidableEq, Repr

/-- `DICOD.__init__` (src/dicod/dicod.py lines 45-58): `logging` and
`positive` are stored as 0/1 integers, and `self.patience` is assigned
the literal `1000`. -/
def DICOD_init (n_jobs use_seg : ℕ) (logging : Bool) (debug : ℕ)
    (positive : Bool) (algorithm patience max_iter : ℕ)
    (tol timeout lmbd : ℚ) : DICODState :=
  { n_jobs := n_jobs, use_seg := use_seg,
    logging := if logging then 1 else 0,
    positive := if positive then 1 else 0,
    algorithm := algorithm, patience := 1000, debug := debug,
    max_iter := max_iter, tol := tol, timeout := timeout, lmbd := lmbd }

/-- The constants array `N` broadcast by `DICOD.send_task`
(src/dicod/dicod.py lines 103-111).  All entries are cast to doubles;
the transmitted iteration budget (index 7) is
`max(1, self.max_iter // self.n_jobs)` (line 104). -/
def DICOD_send_task_N (st : DICODState) (d K S T : ℕ) : List ℚ :=
  [(d : ℚ), (K : ℚ), (S : ℚ), (T : ℚ), st.lmbd, st.tol, st.timeout,
   ((max 1 (st.max_iter / st.n_jobs) : ℕ) : ℚ), (st.debug : ℚ),
   (st.logging : ℚ), (st.use_seg : ℚ), (st.positive : ℚ),
   (st.algorithm : ℚ), (st.patience : ℚ)]

/-- The code length computed by `DICOD.send_task` (src/dicod/dicod.py
line 92): `L = T - S + 1` for signal length `T` and atom length `S`. -/
def DICOD_send_task_L (T S : ℕ) : ℤ :=
  (T : ℤ) - S + 1

/-- The attribute state set up by `DICOD2D.__init__` (src/cdl/dicod2d.py
lines 47-66), restricted to the attributes read by `send_task`. -/
structure DICOD2DState where
  n_jobs : ℕ
  w_world : ℕ
  h_world : ℕ
  use_seg : ℕ
  logging : ℕ
  positive : ℕ
  algorithm : ℕ
  patience : ℕ
  debug : ℕ
  i_max : ℚ
  t_max : ℚ
  tol : ℚ
  lmbd : ℚ
deriving DecidableEq, Repr

/-- `DICOD2D.__init__` (src/cdl/dicod2d.py lines 47-66): `debug` is
lowered by one (clipped at 0), `logging` and `positive` are stored as 0/1,
`self.patience` is assigned the literal `1000`, and
`h_world = n_jobs // w_world`. -/
def DICOD2D_init (n_jobs w_world use_seg : ℕ) (logging : Bool) (debug : ℕ)
    (positive : Bool) (algorithm patience : ℕ)
    (i_max t_max tol lmbd : ℚ) : DICOD2DState :=
  { n_jobs := n_jobs, w_world := w_world, h_world := n_jobs / w_world,
    use_seg := use_seg,
    logging := if logging then 1 else 0,
    positive := if positive then 1 else 0,
    algorithm := algorithm, patience := 1000, debug := debug - 1,
    i_max := i_max, t_max := t_max, tol := tol, lmbd := lmbd }

/-- The constants array `N` broadcast by `DICOD2D.send_task`
(src/cdl/dicod2d.py lines 122-131); the iteration budget (index 10) is
`i_max / n_jobs` (true division) and `patience` is the last entry
(index 16). -/
def DICOD2D_send_task_N (st : DICOD2DState) (d K h_dic w_dic h_sig w_sig : ℕ) :
    List ℚ :=
  [(d : ℚ), (K : ℚ), (h_dic : ℚ), (w_dic : ℚ), (h_sig : ℚ), (w_sig : ℚ),
   (st.w_world : ℚ), st.lmbd, st.tol, st.t_max, st.i_max / (st.n_jobs : ℚ),
   (st.debug : ℚ), (st.logging : ℚ), (st.use_seg : ℚ), (st.positive : ℚ),
   (st.algorithm : ℚ), (st.patience : ℚ)]

/-- The per-atom coefficient the spec asserts is broadcast: the mean over
the channels of the squared norm of the atom, `(1/C) * Σ_c Σ_p D[k,c,p]²`
(an atom is a list of `C` channels, each a flattened list of spatial
samples). -/
def meanSqNorm (atom : List (List ℚ)) : ℚ :=
  ((atom.map (fun chan => (chan.map (fun x => x * x)).sum)).sum) / (atom.length : ℚ)

/-- `np.sum(np.mean(pb.D * pb.D, axis=1), axis=1)` from `DICOD.send_task`
(src/dicod/dicod.py line 96; the 2D variant at src/cdl/dicod2d.py line
110 additionally sums over the second spatial axis, which the flattened
spatial lists absorb): the channel-mean commutes with the spatial sum, so
each entry is `(Σ_c Σ_p D[k,c,p]²) / C`. -/
def alphaRaw (D : List (List (List ℚ))) : List ℚ :=
  D.map meanSqNorm

/-- The coefficient array actually broadcast: `alpha_k += (alpha_k == 0)`
(src/dicod/dicod.py line 97, src/cdl/dicod2d.py line 111) adds the
indicator of a zero entry before `self._broadcast_array(alpha_k)`. -/
def alpha_k (D : List (List (List ℚ))) : List ℚ :=
  (alphaRaw D).map (fun a => a + if a = 0 then 1 else 0)

/-- A dense real array: a shape together with an entry function on index
tuples. -/
structure NDArrayQ where
  shape : List ℤ
  entry : List ℕ → ℚ

/-- The element-wise `MPI.SUM` reduction over the per-worker contribution
buffers (`comm.Reduce(..., MPI.SUM, root=MPI.ROOT)`). -/
def reduceSum (contribs : List (List ℕ → ℚ)) : List ℕ → ℚ :=
  fun idx => (contribs.map (fun f => f idx)).sum

/-- The sufficient-statistics part of `_recv_result`
(src/dicod/_dicod.py lines 288-297): when `return_ztz` the root allocates
`ztz` of shape `(n_atoms, n_atoms, *(2 * atom - 1))` and `ztX` of shape
`(n_atoms, n_channels, *atom_shape)` and sum-reduces the worker
contributions into them; otherwise both are `None`. -/
def recv_result_stats (return_ztz : Bool) (nAtoms nChannels : ℕ)
    (atomShape : List ℕ) (ztzContribs ztXContribs : List (List ℕ → ℚ)) :
    Option NDArrayQ × Option NDArrayQ :=
  if return_ztz then
    (some { shape := (nAtoms : ℤ) :: (nAtoms : ℤ) ::
              atomShape.map (fun s => 2 * (s : ℤ) - 1),
            entry := reduceSum ztzContribs },
     some { shape := (nAtoms : ℤ) :: (nChannels : ℤ) ::
              atomShape.map (fun s => (s : ℤ)),
            entry := reduceSum ztXContribs })
  else (none, none)

/-- One worker log entry `(t_update, ii, rank, k0, pt0, dz)` as gathered by
`_recv_result` and replayed by `reconstruct_pobj`
(src/dicod/_dicod.py lines 148-178). -/
structure UpdateRecord where
  t : ℚ
  ii : ℤ
  rank : ℕ
  k0 : ℕ
  pt0 : List ℕ
  dz : ℚ
deriving DecidableEq, Repr

/-- Strict lexicographic comparison of coordinate tuples, as Python
compares the `pt0` components of two log tuples. -/
def listLtb : List ℕ → List ℕ → Bool
  | [], [] => false
  | [], _ :: _ => true
  | _ :: _, [] => false
  | a :: as, b :: bs => if a < b then true else if b < a then false else listLtb as bs

/-- Non-strict lexicographic comparison of two log records, field by field
in tuple order `(t, ii, rank, k0, pt0, dz)` — the order `_log.sort()`
establishes. -/
def recLEb (a b : UpdateRecord) : Bool :=
  if a.t ≠ b.t then decide (a.t < b.t)
  else if a.ii ≠ b.ii then decide (a.ii < b.ii)
  else if a.rank ≠ b.rank then decide (a.rank < b.rank)
  else if a.k0 ≠ b.k0 then decide (a.k0 < b.k0)
  else if a.pt0 ≠ b.pt0 then listLtb a.pt0 b.pt0
  else decide (a.dz ≤ b.dz)

/-- Insert a record into a list sorted by `recLEb`. -/
def insertRec (r : UpdateRecord) : List UpdateRecord → List UpdateRecord
  | [] => [r]
  | x :: xs => if recLEb r x then r :: x :: xs else x :: insertRec r xs

/-- `_log.sort()` (src/dicod/_dicod.py line 156): sort the gathered log
records by the lexicographic tuple order. -/
def sortRecords : List UpdateRecord → List UpdateRecord
  | [] => []
  | x :: xs => insertRec x (sortRecords xs)

/-- The mutable state of the replay loop of `reconstruct_pobj`
(src/dicod/_dicod.py lines 150-174): the current activation map `z_hat`
(indexed by atom and coordinate tuple), the global update counter
`up_ii`, the per-rank counters `last_ii`, the next checkpoint threshold
`next_cost` and the checkpoints `p_obj` accumulated so far. -/
structure ReplayState where
  z : ℕ → List ℕ → ℚ
  upII : ℤ
  lastII : ℕ → ℤ
  nextCost : ℤ
  pobj : List (ℤ × ℚ × ℚ)

/-- One iteration of the replay loop (src/dicod/_dicod.py lines 166-174):
apply `dz` at `(k0, pt0)`, advance `up_ii` by `ii - last_ii[rank]`,
update `last_ii[rank]`, and if `up_ii` reached `next_cost` record the
checkpoint `(up_ii, t_update, cost)` and double `next_cost`.  `costF`
abstracts `cost(X, z_hat, D, reg)` from the `utils.csc` module, which is
not part of the sources. -/
def replayStep (costF : (ℕ → List ℕ → ℚ) → ℚ) (st : ReplayState)
    (r : UpdateRecord) : ReplayState :=
  if st.nextCost ≤ st.upII + (r.ii - st.lastII r.rank) then
    { z := fun k p => if k = r.k0 ∧ p = r.pt0 then st.z k p + r.dz else st.z k p,
      upII := st.upII + (r.ii - st.lastII r.rank),
      lastII := fun rk => if rk = r.rank then r.ii else st.lastII rk,
      nextCost := st.nextCost * 2,
      pobj := st.pobj ++ [(st.upII + (r.ii - st.lastII r.rank), r.t,
        costF (fun k p =>
          if k = r.k0 ∧ p = r.pt0 then st.z k p + r.dz else st.z k p))] }
  else
    { z := fun k p => if k = r.k0 ∧ p = r.pt0 then st.z k p + r.dz else st.z k p,
      upII := st.upII + (r.ii - st.lastII r.rank),
      lastII := fun rk => if rk = r.rank then r.ii else st.lastII rk,
      nextCost := st.nextCost,
      pobj := st.pobj }

/-- `reconstruct_pobj` (src/dicod/_dicod.py lines 148-178): start from
`z0` (or zeros), sort the log, replay it through `replayStep` from
`up_ii = 0`, `last_ii = [0] * n_jobs`, `next_cost = 1`, and append one
final checkpoint carrying the last record's timestamp. -/
def reconstruct_pobj (costF : (ℕ → List ℕ → ℚ) → ℚ)
    (z0 : Option (ℕ → List ℕ → ℚ)) (log : List UpdateRecord) :
    List (ℤ × ℚ × ℚ) :=
  let s := sortRecords log
  let st := s.foldl (replayStep costF)
    { z := z0.getD (fun _ _ => 0), upII := 0, lastII := fun _ => 0,
      nextCost := 1, pobj := [] }
  st.pobj ++ [(st.upII, ((s.getLast?).map UpdateRecord.t).getD 0, costF st.z)]

/-- The timing gate at the end of `dicod` (src/dicod/_dicod.py lines
140-144): the cost curve is reconstructed only when `timing` is set,
otherwise `p_obj` is `None`. -/
def dicod_p_obj (timing : Bool) (costF : (ℕ → List ℕ → ℚ) → ℚ)
    (z0 : Option (ℕ → List ℕ → ℚ)) (log : List UpdateRecord) :
    Option (List (ℤ × ℚ × ℚ)) :=
  if timing then some (reconstruct_pobj costF z0 log) else none

/-- Replay state for the spec-side description of the reconstruction,
without the explicit `next_cost` register: the threshold for the next
checkpoint is `2 ^ (number of checkpoints recorded so far)`. -/
structure SpecReplayState where
  z : ℕ → List ℕ → ℚ
  upII : ℤ
  lastII : ℕ → ℤ
  pobj : List (ℤ × ℚ × ℚ)

/-- One replay iteration as the spec words it: apply the update, and
record a `(update_count, t_update, cost)` checkpoint whenever the
accumulated update count reaches the next power of two. -/
def replayStepSpec (costF : (ℕ → List ℕ → ℚ) → ℚ) (st : SpecReplayState)
    (r : UpdateRecord) : SpecReplayState :=
  if (2 : ℤ) ^ st.pobj.length ≤ st.upII + (r.ii - st.lastII r.rank) then
    { z := fun k p => if k = r.k0 ∧ p = r.pt0 then st.z k p + r.dz else st.z k p,
      upII := st.upII + (r.ii - st.lastII r.rank),
      lastII := fun rk => if rk = r.rank then r.ii else st.lastII rk,
      pobj := st.pobj ++ [(st.upII + (r.ii - st.lastII r.rank), r.t,
        costF (fun k p =>
          if k = r.k0 ∧ p = r.pt0 then st.z k p + r.dz else st.z k p))] }
  else
    { z := fun k p => if k = r.k0 ∧ p = r.pt0 then st.z k p + r.dz else st.z k p,
      upII := st.upII + (r.ii - st.lastII r.rank),
      lastII := fun rk => if rk = r.rank then r.ii else st.lastII rk,
      pobj := st.pobj }

/-- Forget the `next_cost` register of a replay state. -/
def ReplayState.toSpec (st : ReplayState) : SpecReplayState :=
  { z := st.z, upII := st.upII, lastII := st.lastII, pobj := st.pobj }

/-- The cost-curve reconstruction as the spec describes it, applied to an
already ordered record list `s`: replay each `dz` onto `z` in the given
order, checkpoint at geometrically spaced update counts, and add one
final checkpoint. -/
def reconstructPobjSpec (costF : (ℕ → List ℕ → ℚ) → ℚ)
    (zInit : ℕ → List ℕ → ℚ) (s : List UpdateRecord) : List (ℤ × ℚ × ℚ) :=
  let st := s.foldl (replayStepSpec costF)
    { z := zInit, upII := 0, lastII := fun _ => 0, pobj := [] }
  st.pobj ++ [(st.upII, ((s.getLast?).map UpdateRecord.t).getD 0, costF st.z)]

/-- Outcome of one end-of-iteration check of the `dicodil` outer loop
(src/dicod/dicodil.py lines 141-162). -/
inductive LoopOutcome
  | zIncreaseError
  | dIncreaseError
  | converged
  | stopPobj
  | next
deriving DecidableEq, Repr

/-- The `stopping_pobj` check that ends each `dicodil` iteration
(src/dicod/dicodil.py lines 161-162): break when the last cost got below
the target, otherwise run the next iteration. -/
def dicodil_afterStop (p1 : ℚ) (stopping_pobj : Option ℚ) : LoopOutcome :=
  match stopping_pobj with
  | some s => if p1 < s then .stopPobj else .next
  | none => .next

/-- The end-of-iteration check of `dicodil` (src/dicod/dicodil.py lines
141-162): with `dz = (pobj[-3] - pobj[-2]) / min(pobj[-3], pobj[-2])` and
`du = (pobj[-2] - pobj[-1]) / min(pobj[-2], pobj[-1])`, when
`dz < eps or du < eps` the loop raises on a z-side or d-side cost
increase if `raise_on_increase`, and breaks as converged when both are
below `eps`; otherwise it falls through to the `stopping_pobj` check. -/
def dicodil_check (p3 p2 p1 eps : ℚ) (raise_on_increase : Bool)
    (stopping_pobj : Option ℚ) : LoopOutcome :=
  if (p3 - p2) / min p3 p2 < eps ∨ (p2 - p1) / min p2 p1 < eps then
    if (p3 - p2) / min p3 p2 < 0 ∧ raise_on_increase = true then
      .zIncreaseError
    else if (p2 - p1) / min p2 p1 < -(1 / 10000000000) ∧
        (1 / 1000000000000 : ℚ) < (p3 - p2) / min p3 p2 ∧
        raise_on_increase = true then
      .dIncreaseError
    else if (p3 - p2) / min p3 p2 < eps ∧ (p2 - p1) / min p2 p1 < eps then
      .converged
    else dicodil_afterStop p1 stopping_pobj
  else dicodil_afterStop p1 stopping_pobj

theorem validShapeOf_get (sig atom : List ℕ) (i : ℕ) (hi : i < sig.length)
    (hlen : atom.length = sig.length) :
    (validShapeOf sig atom)[i]? =
      some (((sig[i]?.getD 0 : ℕ) : ℤ) - ((atom[i]?.getD 0 : ℕ) : ℤ) + 1) := by
  have hi' : i < atom.length := by omega
  unfold validShapeOf
  rw [List.getElem?_zipWith, List.getElem?_eq_getElem hi,
    List.getElem?_eq_getElem hi']
  rfl

theorem dicodParams_ok_valid_shape {σ δ ζ : Type} (a : DicodArgs σ δ ζ)
    (p : TaskParams) (hp : dicodParams a = .ok p) :
    p.valid_shape = validShapeOf a.sigShape a.atomShape ∧
    (∃ topo, topologyOf a = .ok topo ∧ p.workers_topology = topo) ∧
    a.atomShape.length = a.sigShape.length := by
  unfold dicodParams at hp
  by_cases hlen : a.atomShape.length = a.sigShape.length
  · rw [if_neg (by simpa using hlen)] at hp
    cases htopo : topologyOf a with
    | error e => rw [htopo] at hp; cases hp
    | ok topo =>
      rw [htopo] at hp
      cases hp
      exact ⟨rfl, ⟨topo, rfl, rfl⟩, hlen⟩
  · rw [if_pos (by simpa using hlen)] at hp
    cases hp

/-- C1: with `n_jobs = 1`, `dicod` performs no transport effect at all and
returns exactly the value of the local solver `coordinate_descent` invoked
on the same `X`, `D`, `reg`, `z0`, `n_seg`, `strategy`, `tol`, `max_iter`,
`timeout`, `z_positive`, `freeze_support`, `return_ztz`, `timing`,
`random_state` (and `verbose`). -/
theorem dicod_single_worker_fast_path {σ δ ζ ρ : Type} (cd : CDCall σ δ ζ → ρ)
    (segInnerShape0 : List ℕ → List ℤ → List ℕ) (distRes : ρ)
    (a : DicodArgs σ δ ζ) (h1 : a.n_jobs = 1) :
    dicod cd segInnerShape0 distRes a =
      ([], .ok (cd { X := a.X, D := a.D, reg := a.reg, z0 := a.z0,
                     n_seg := a.n_seg, strategy := a.strategy, tol := a.tol,
                     max_iter := a.max_iter, timeout := a.timeout,
                     z_positive := a.z_positive,
                     freeze_support := a.freeze_support,
                     return_ztz := a.return_ztz, timing := a.timing,
                     random_state := a.random_state, verbose := a.verbose })) := by
  unfold dicod
  rw [if_pos h1]

/-- Witness for C1 at a concrete single-worker argument record. -/
theorem dicod_single_worker_fast_path_witness :
    dicod (fun (_ : CDCall Unit Unit Unit) => (7 : ℕ)) (fun _ _ => []) 0
      { X := (), nChannels := 1, sigShape := [10], D := (), nAtoms := 1,
        atomShape := [3], reg := 1, z0 := none, n_seg := .auto,
        strategy := "greedy", use_soft_lock := true, n_jobs := 1,
        w_world := .auto, hostfile := none, tol := 1, max_iter := 100,
        timeout := none, z_positive := false, return_ztz := false,
        freeze_support := false, timing := false, random_state := none,
        verbose := 0, debug := false } = ([], Except.ok 7) :=
  dicod_single_worker_fast_path _ _ _ _ rfl

/-- C2: the `params` record assembled by `dicod` holds the valid shape
`Vᵢ = Sᵢ - aᵢ + 1` on every axis, and `DICOD.send_task` computes the code
length `L = T - S + 1`. -/
theorem dicod_valid_shape_formula {σ δ ζ : Type} (a : DicodArgs σ δ ζ)
    (p : TaskParams) (hp : dicodParams a = .ok p) (i : ℕ)
    (hi : i < a.sigShape.length) :
    p.valid_shape[i]? =
      some (((a.sigShape[i]?.getD 0 : ℕ) : ℤ) -
            ((a.atomShape[i]?.getD 0 : ℕ) : ℤ) + 1) ∧
    ∀ T S : ℕ, DICOD_send_task_L T S = (T : ℤ) - S + 1 := by
  obtain ⟨hv, -, hlen⟩ := dicodParams_ok_valid_shape a p hp
  refine ⟨?_, fun T S => rfl⟩
  rw [hv]
  exact validShapeOf_get _ _ i hi hlen

/-- Witness for C2 on a concrete 2-worker configuration. -/
theorem dicod_valid_shape_formula_witness :
    ([96] : List ℤ)[0]? =
      some ((((100 : ℕ) : ℤ)) - (((5 : ℕ)) : ℤ) + 1) ∧
    ∀ T S : ℕ, DICOD_send_task_L T S = (T : ℤ) - S + 1 :=
  dicod_valid_shape_formula
    { X := (), nChannels := 1, sigShape := [100], D := (), nAtoms := 1,
      atomShape := [5], reg := 1, z0 := (none : Option Unit),
      n_seg := .auto, strategy := "greedy", use_soft_lock := true,
      n_jobs := 2, w_world := .auto, hostfile := none, tol := 1,
      max_iter := 100, timeout := none, z_positive := false,
      return_ztz := false, freeze_support := false, timing := false,
      random_state := none, verbose := 0, debug := false }
    { strategy := "greedy", tol := 1, max_iter := 100, timeout := none,
      n_seg := .auto, z_positive := false, verbose := 0, timing := false,
      debug := false, random_state := none, reg := 1, return_ztz := false,
      use_soft_lock := true, has_z0 := false, freeze_support := false,
      valid_shape := [96], workers_topology := [2] }
    rfl 0 (by decide)

/-- C3: with several workers and a successfully assembled parameter set,
`dicod` raises `ValueError("Using too many cores.")` with an empty
transport trace (so before any worker is spawned and before any message
is sent) exactly when some axis of the first worker's inner tile has
`2 * size_atom_ax - 1 >= size_valid_ax`; otherwise the run proceeds to
spawn and the error is not raised. -/
theorem dicod_too_many_cores {σ δ ζ ρ : Type} (cd : CDCall σ δ ζ → ρ)
    (segInnerShape0 : List ℕ → List ℤ → List ℕ) (distRes : ρ)
    (a : DicodArgs σ δ ζ) (p : TaskParams) (hn : ¬a.n_jobs = 1)
    (hp : dicodParams a = .ok p) :
    ((∃ q ∈ a.atomShape.zip (segInnerShape0 p.workers_topology p.valid_shape),
        (q.2 : ℤ) ≤ 2 * (q.1 : ℤ) - 1) →
      dicod cd segInnerShape0 distRes a = ([], .error .tooManyCores)) ∧
    ((∀ q ∈ a.atomShape.zip (segInnerShape0 p.workers_topology p.valid_shape),
        2 * (q.1 : ℤ) - 1 < (q.2 : ℤ)) →
      dicod cd segInnerShape0 distRes a =
        ([.spawnWorkers a.n_jobs, .sendTask p, .barrier,
          .recvResult a.return_ztz a.timing, .barrier], .ok distRes)) := by
  constructor
  · rintro ⟨q, hq, hle⟩
    have hany : ((a.atomShape.zip
        (segInnerShape0 p.workers_topology p.valid_shape)).any
          (fun q => decide ((q.2 : ℤ) ≤ 2 * (q.1 : ℤ) - 1))) = true := by
      simp only [List.any_eq_true, decide_eq_true_eq]
      exact ⟨q, hq, hle⟩
    simp [dicod, hn, hp, hany]
  · intro hall
    have hany : ((a.atomShape.zip
        (segInnerShape0 p.workers_topology p.valid_shape)).any
          (fun q => decide ((q.2 : ℤ) ≤ 2 * (q.1 : ℤ) - 1))) = false := by
      simp only [List.any_eq_false, decide_eq_true_eq]
      intro q hq
      exact not_le.mpr (hall q hq)
    simp [dicod, hn, hp, hany]

/-- Witness for C3 on a configuration whose worker tile is too small. -/
theorem dicod_too_many_cores_witness :
    ((∃ q ∈ ([5] : List ℕ).zip ([8] : List ℕ),
        (q.2 : ℤ) ≤ 2 * (q.1 : ℤ) - 1) →
      dicod (fun (_ : CDCall Unit Unit Unit) => (0 : ℕ)) (fun _ _ => [8]) 0
        { X := (), nChannels := 1, sigShape := [20], D := (), nAtoms := 1,
          atomShape := [5], reg := 1, z0 := none, n_seg := .auto,
          strategy := "greedy", use_soft_lock := true, n_jobs := 2,
          w_world := .auto, hostfile := none, tol := 1, max_iter := 100,
          timeout := none, z_positive := false, return_ztz := false,
          freeze_support := false, timing := false, random_state := none,
          verbose := 0, debug := false } = ([], .error .tooManyCores)) ∧
    ((∀ q ∈ ([5] : List ℕ).zip ([8] : List ℕ),
        2 * (q.1 : ℤ) - 1 < (q.2 : ℤ)) →
      dicod (fun (_ : CDCall Unit Unit Unit) => (0 : ℕ)) (fun _ _ => [8]) 0
        { X := (), nChannels := 1, sigShape := [20], D := (), nAtoms := 1,
          atomShape := [5], reg := 1, z0 := none, n_seg := .auto,
          strategy := "greedy", use_soft_lock := true, n_jobs := 2,
          w_world := .auto, hostfile := none, tol := 1, max_iter := 100,
          timeout := none, z_positive := false, return_ztz := false,
          freeze_support := false, timing := false, random_state := none,
          verbose := 0, debug := false } =
        ([.spawnWorkers 2,
          .sendTask { strategy := "greedy", tol := 1, max_iter := 100,
                      timeout := none, n_seg := .auto, z_positive := false,
                      verbose := 0, timing := false, debug := false,
                      random_state := none, reg := 1, return_ztz := false,
                      use_soft_lock := true, has_z0 := false,
                      freeze_support := false, valid_shape := [16],
                      workers_topology := [2] }, .barrier,
          .recvResult false false, .barrier], .ok 0)) :=
  dicod_too_many_cores (fun (_ : CDCall Unit Unit Unit) => (0 : ℕ))
    (fun _ _ => [8]) 0
    { X := (), nChannels := 1, sigShape := [20], D := (), nAtoms := 1,
      atomShape := [5], reg := 1, z0 := none, n_seg := .auto,
      strategy := "greedy", use_soft_lock := true, n_jobs := 2,
      w_world := .auto, hostfile := none, tol := 1, max_iter := 100,
      timeout := none, z_positive := false, return_ztz := false,
      freeze_support := false, timing := false, random_state := none,
      verbose := 0, debug := false }
    { strategy := "greedy", tol := 1, max_iter := 100, timeout := none,
      n_seg := .auto, z_positive := false, verbose := 0, timing := false,
      debug := false, random_state := none, reg := 1, return_ztz := false,
      use_soft_lock := true, has_z0 := false, freeze_support := false,
      valid_shape := [16], workers_topology := [2] }
    (by decide) rfl

/-- C5 counterexample: the claim says the iteration budget transmitted to
each worker equals the caller-supplied `max_iter`, but `DICOD.send_task`
with `max_iter = 1000` and `n_jobs = 4` transmits `250`. -/
theorem max_iter_budget_counterexample :
    (DICOD_send_task_N
        (DICOD_init 4 1 false 0 false 0 1000 1000 1 40 1) 1 2 5 100)[7]? =
      some 250 ∧ (250 : ℚ) ≠ 1000 := by
  constructor
  · show some (((max 1 (1000 / 4) : ℕ) : ℚ)) = some 250
    norm_num
  · norm_num

/-- C5 (amended): in `_dicod.dicod` the `params` dict carries `max_iter`
unchanged, but the budget `DICOD.send_task` transmits (entry 7 of the
constants array `N`) is `max(1, max_iter // n_jobs)`, so it shrinks with
the worker count. -/
theorem max_iter_budget_amended {σ δ ζ : Type} (st : DICODState)
    (d K S T : ℕ) (a : DicodArgs σ δ ζ) :
    (DICOD_send_task_N st d K S T)[7]? =
      some ((max 1 (st.max_iter / st.n_jobs) : ℕ) : ℚ) ∧
    (dicodBaseParams a).max_iter = a.max_iter :=
  ⟨rfl, rfl⟩

/-- C6 counterexample: for the dictionary with the single all-zero atom
`D = [[[0]]]`, the broadcast coefficient is `1` while the mean over
channels of `‖D₀‖²` is `0`, so the broadcast value is not the mean
squared norm. -/
theorem alpha_k_zero_atom_counterexample :
    alpha_k [[[0]]] = [1] ∧ meanSqNorm [[0]] = 0 ∧ (1 : ℚ) ≠ 0 := by
  refine ⟨?_, ?_, by norm_num⟩
  · norm_num [alpha_k, alphaRaw, meanSqNorm]
  · norm_num [meanSqNorm]

/-- C6 (amended): the coefficient broadcast for atom `k` equals the mean
over channels of `‖Dₖ‖²` whenever that mean is nonzero; for an atom of
zero norm the code adds the indicator `(alpha_k == 0)` and broadcasts `1`. -/
theorem alpha_k_broadcast_amended (D : List (List (List ℚ))) (k : ℕ)
    (hk : k < D.length) :
    (alpha_k D)[k]? =
      some (if meanSqNorm (D[k]?.getD []) = 0 then 1
            else meanSqNorm (D[k]?.getD [])) := by
  unfold alpha_k alphaRaw
  rw [List.getElem?_map, List.getElem?_map, List.getElem?_eq_getElem hk]
  show some (meanSqNorm D[k] + if meanSqNorm D[k] = 0 then 1 else 0) = _
  have : (some D[k]).getD [] = D[k] := rfl
  rw [this]
  by_cases h : meanSqNorm D[k] = 0
  · rw [if_pos h, if_pos h, h, zero_add]
  · rw [if_neg h, if_neg h, add_zero]

/-- Witness for C6 (amended) at a dictionary with one nonzero atom. -/
theorem alpha_k_broadcast_amended_witness :
    (alpha_k [[[2]]])[0]? =
      some (if meanSqNorm (([[[2]]] : List (List (List ℚ)))[0]?.getD []) = 0
            then 1
            else meanSqNorm (([[[2]]] : List (List (List ℚ)))[0]?.getD [])) :=
  alpha_k_broadcast_amended [[[2]]] 0 (by norm_num)

/-- C7: `_recv_result` returns `ztz` and `ztX` as `None` exactly when
`return_ztz` is false; when it is true, `ztz` is the element-wise
`MPI.SUM` reduction of the worker contributions with shape
`(n_atoms, n_atoms, 2a₁-1, …, 2a_d-1)` and `ztX` is the reduction with
shape `(n_atoms, n_channels, a₁, …, a_d)`. -/
theorem recv_result_sufficient_stats (return_ztz : Bool) (nAtoms nChannels : ℕ)
    (atomShape : List ℕ) (ztzContribs ztXContribs : List (List ℕ → ℚ)) :
    ((recv_result_stats return_ztz nAtoms nChannels atomShape
        ztzContribs ztXContribs).1 = none ↔ return_ztz = false) ∧
    ((recv_result_stats return_ztz nAtoms nChannels atomShape
        ztzContribs ztXContribs).2 = none ↔ return_ztz = false) ∧
    (return_ztz = true →
      ∃ zz zx,
        recv_result_stats return_ztz nAtoms nChannels atomShape
          ztzContribs ztXContribs = (some zz, some zx) ∧
        zz.shape = (nAtoms : ℤ) :: (nAtoms : ℤ) ::
          atomShape.map (fun s => 2 * (s : ℤ) - 1) ∧
        zx.shape = (nAtoms : ℤ) :: (nChannels : ℤ) ::
          atomShape.map (fun s => (s : ℤ)) ∧
        (∀ idx, zz.entry idx = (ztzContribs.map (fun f => f idx)).sum) ∧
        (∀ idx, zx.entry idx = (ztXContribs.map (fun f => f idx)).sum)) := by
  cases return_ztz with
  | false =>
    refine ⟨?_, ?_, ?_⟩
    · simp [recv_result_stats]
    · simp [recv_result_stats]
    · intro h; cases h
  | true =>
    refine ⟨?_, ?_, ?_⟩
    · simp [recv_result_stats]
    · simp [recv_result_stats]
    · intro _
      refine ⟨_, _, rfl, rfl, rfl, fun idx => rfl, fun idx => rfl⟩

/-- Witness for C7 at a concrete two-worker contribution list. -/
theorem recv_result_sufficient_stats_witness :
    ((recv_result_stats true 2 1 [3]
        [fun _ => 1, fun _ => 2] [fun _ => 3]).1 = none ↔ True = False) ∧
    ((recv_result_stats true 2 1 [3]
        [fun _ => 1, fun _ => 2] [fun _ => 3]).2 = none ↔ True = False) ∧
    (True = True →
      ∃ zz zx,
        recv_result_stats true 2 1 [3]
          [fun _ => 1, fun _ => 2] [fun _ => 3] = (some zz, some zx) ∧
        zz.shape = ((2 : ℕ) : ℤ) :: ((2 : ℕ) : ℤ) ::
          ([3] : List ℕ).map (fun s => 2 * (s : ℤ) - 1) ∧
        zx.shape = ((2 : ℕ) : ℤ) :: ((1 : ℕ) : ℤ) ::
          ([3] : List ℕ).map (fun s => (s : ℤ)) ∧
        (∀ idx, zz.entry idx =
          (([fun _ => 1, fun _ => 2] :
              List (List ℕ → ℚ)).map (fun f => f idx)).sum) ∧
        (∀ idx, zx.entry idx =
          (([fun _ => 3] : List (List ℕ → ℚ)).map (fun f => f idx)).sum)) := by
  have h := recv_result_sufficient_stats true 2 1 [3]
    [fun _ => 1, fun _ => 2] [fun _ => 3]
  exact ⟨by simpa using h.1, by simpa using h.2.1, fun _ => h.2.2 rfl⟩

/-- C9: in the `dicodil` outer loop, whenever the z-update increased the
objective (the normalized difference `dz` is negative) and
`raise_on_increase` holds, the iteration check raises the z-increase
`RuntimeError`; with `raise_on_increase = False` no increase error is
raised and the check only converges, stops on `stopping_pobj`, or
continues. -/
theorem dicodil_raise_on_increase (p3 p2 p1 eps : ℚ)
    (stopping_pobj : Option ℚ) (heps : 0 ≤ eps) :
    ((p3 - p2) / min p3 p2 < 0 →
      dicodil_check p3 p2 p1 eps true stopping_pobj = .zIncreaseError) ∧
    (dicodil_check p3 p2 p1 eps false stopping_pobj ≠ .zIncreaseError ∧
     dicodil_check p3 p2 p1 eps false stopping_pobj ≠ .dIncreaseError) := by
  constructor
  · intro hdz
    unfold dicodil_check
    rw [if_pos (Or.inl (lt_of_lt_of_le hdz heps))]
    rw [if_pos ⟨hdz, rfl⟩]
  · have hAfter : ∀ q : Option ℚ,
        dicodil_afterStop p1 q ≠ .zIncreaseError ∧
        dicodil_afterStop p1 q ≠ .dIncreaseError := by
      intro q
      cases q with
      | none => exact ⟨by simp [dicodil_afterStop], by simp [dicodil_afterStop]⟩
      | some s =>
        by_cases h : p1 < s
        · exact ⟨by simp [dicodil_afterStop, h], by simp [dicodil_afterStop, h]⟩
        · exact ⟨by simp [dicodil_afterStop, h], by simp [dicodil_afterStop, h]⟩
    unfold dicodil_check
    by_cases h1 : (p3 - p2) / min p3 p2 < eps ∨ (p2 - p1) / min p2 p1 < eps
    · rw [if_pos h1, if_neg (by simp), if_neg (by simp)]
      by_cases h2 : (p3 - p2) / min p3 p2 < eps ∧ (p2 - p1) / min p2 p1 < eps
      · rw [if_pos h2]; exact ⟨by simp, by simp⟩
      · rw [if_neg h2]; exact hAfter _
    · rw [if_neg h1]; exact hAfter _

/-- Witness for C9 at a concrete cost increase `4 → 5`. -/
theorem dicodil_raise_on_increase_witness :
    (((4 : ℚ) - 5) / min (4 : ℚ) 5 < 0 →
      dicodil_check 4 5 5 (1 / 100000) true none = .zIncreaseError) ∧
    (dicodil_check 4 5 5 (1 / 100000) false none ≠ .zIncreaseError ∧
     dicodil_check 4 5 5 (1 / 100000) false none ≠ .dIncreaseError) :=
  dicodil_raise_on_increase 4 5 5 (1 / 100000) none (by norm_num)

/-- C10: the `patience` constructor argument of both `DICOD` and
`DICOD2D` is ignored: whatever `patience` value is passed, the stored
attribute is `1000`, and the patience entry of the broadcast constants
array (index 13 for `DICOD`, index 16 for `DICOD2D`) is `1000`. -/
theorem patience_argument_ignored (n_jobs w_world use_seg : ℕ)
    (logging : Bool) (debug : ℕ) (positive : Bool)
    (algorithm patience max_iter : ℕ) (tol timeout lmbd i_max t_max : ℚ)
    (d K S T h_dic w_dic h_sig w_sig : ℕ) :
    (DICOD_init n_jobs use_seg logging debug positive algorithm patience
        max_iter tol timeout lmbd).patience = 1000 ∧
    (DICOD2D_init n_jobs w_world use_seg logging debug positive algorithm
        patience i_max t_max tol lmbd).patience = 1000 ∧
    (DICOD_send_task_N (DICOD_init n_jobs use_seg logging debug positive
        algorithm patience max_iter tol timeout lmbd) d K S T)[13]? =
      some 1000 ∧
    (DICOD2D_send_task_N (DICOD2D_init n_jobs w_world use_seg logging debug
        positive algorithm patience i_max t_max tol lmbd) d K h_dic w_dic
        h_sig w_sig)[16]? = some 1000 := by
  refine ⟨rfl, rfl, ?_, ?_⟩
  · show some (((1000 : ℕ) : ℚ)) = some 1000
    norm_num
  · show some (((1000 : ℕ) : ℚ)) = some 1000
    norm_num

theorem gridRatio_one (height width n : ℕ) :
    gridRatio height width 1 n = ((width * n : ℕ) : ℚ) / ((height : ℕ) : ℚ) := by
  unfold gridRatio
  norm_num

theorem findGridStep_inv (n_jobs height width m : ℕ) (st : (ℕ × ℕ) × ℚ)
    (h : GridInv n_jobs height width m st) :
    GridInv n_jobs height width (m + 1)
      (findGridStep n_jobs height width st (m + 1)) := by
  obtain ⟨hprod, hratio, hbest⟩ := h
  unfold findGridStep
  by_cases hdvd : n_jobs % (m + 1) = 0
  · rw [if_pos hdvd]
    have hd : (m + 1) ∣ n_jobs := Nat.dvd_of_mod_eq_zero hdvd
    have hij : (m + 1) * (n_jobs / (m + 1)) = n_jobs := Nat.mul_div_cancel' hd
    by_cases hlt :
        |gridRatio height width (m + 1) (n_jobs / (m + 1)) - 1| < |st.2 - 1|
    · rw [if_pos hlt]
      refine ⟨hij, rfl, ?_⟩
      intro i j h1 hle hfac
      rcases Nat.lt_or_ge i (m + 1) with hlt' | hge
      · exact le_trans (le_of_lt hlt) (hbest i j h1 (by omega) hfac)
      · have hi : i = m + 1 := by omega
        subst hi
        have hj : j = n_jobs / (m + 1) :=
          Nat.eq_of_mul_eq_mul_left (by omega) (hfac.trans hij.symm)
        subst hj
        exact le_refl _
    · rw [if_neg hlt]
      refine ⟨hprod, hratio, ?_⟩
      intro i j h1 hle hfac
      rcases Nat.lt_or_ge i (m + 1) with hlt' | hge
      · exact hbest i j h1 (by omega) hfac
      · have hi : i = m + 1 := by omega
        subst hi
        have hj : j = n_jobs / (m + 1) :=
          Nat.eq_of_mul_eq_mul_left (by omega) (hfac.trans hij.symm)
        subst hj
        exact le_of_not_lt hlt
  · rw [if_neg hdvd]
    refine ⟨hprod, hratio, ?_⟩
    intro i j h1 hle hfac
    rcases Nat.lt_or_ge i (m + 1) with hlt' | hge
    · exact hbest i j h1 (by omega) hfac
    · exfalso
      have hi : i = m + 1 := by omega
      subst hi
      exact hdvd (Nat.mod_eq_zero_of_dvd ⟨j, hfac.symm⟩)

theorem findGrid_fold_inv (n_jobs height width : ℕ) (st : (ℕ × ℕ) × ℚ)
    (h : GridInv n_jobs height width 1 st) (len : ℕ) :
    GridInv n_jobs height width (len + 1)
      ((List.range' 2 len).foldl (findGridStep n_jobs height width) st) := by
  induction len with
  | zero => simpa using h
  | succ n ih =>
    rw [List.range'_concat, List.foldl_append]
    simp only [List.foldl_cons, List.foldl_nil]
    have h2 : 2 + 1 * n = (n + 1) + 1 := by omega
    rw [h2]
    exact findGridStep_inv n_jobs height width (n + 1) _ ih

/-- C4: for `n_jobs ≥ 1` and a 2D signal of shape `(height, width)` with
`height > 0`, `_find_grid_size` returns a factorization
`w_world * h_world = n_jobs` whose tile aspect ratio
`width * h_world / (height * w_world)` is at least as close to 1 as that
of every factorization of `n_jobs`; for 1D signals it returns
`(n_jobs,)`. -/
theorem find_grid_size_aspect_optimal (n_jobs height width : ℕ)
    (hn : 1 ≤ n_jobs) (hh : 0 < height) :
    (∀ s : ℕ, findGridSize n_jobs [s] = some [n_jobs]) ∧
    ∃ w h : ℕ, findGridSize n_jobs [height, width] = some [w, h] ∧
      w * h = n_jobs ∧
      ∀ i j : ℕ, 1 ≤ i → i * j = n_jobs →
        |gridRatio height width w h - 1| ≤ |gridRatio height width i j - 1| := by
  refine ⟨fun s => rfl, ?_⟩
  have hinit : GridInv n_jobs height width 1
      ((1, n_jobs), ((width * n_jobs : ℕ) : ℚ) / ((height : ℕ) : ℚ)) := by
    refine ⟨one_mul _, (gridRatio_one height width n_jobs).symm, ?_⟩
    intro i j h1 hle hfac
    have hi : i = 1 := by omega
    subst hi
    rw [one_mul] at hfac
    subst hfac
    rw [gridRatio_one]
  have hfold := findGrid_fold_inv n_jobs height width _ hinit (n_jobs - 1)
  obtain ⟨hprod, hratio, hbest⟩ := hfold
  refine ⟨_, _, rfl, hprod, ?_⟩
  intro i j h1 hfac
  have hj : 1 ≤ j := by
    rcases Nat.eq_zero_or_pos j with h0 | h0
    · subst h0; omega
    · exact h0
  have hile : i ≤ (n_jobs - 1) + 1 := by
    have : i * 1 ≤ i * j := Nat.mul_le_mul_left i hj
    rw [Nat.mul_one] at this
    omega
  have := hbest i j h1 hile hfac
  rwa [hratio] at this

/-- Witness for C4 at `n_jobs = 6`, `height = 4`, `width = 6`. -/
theorem find_grid_size_aspect_optimal_witness :
    (∀ s : ℕ, findGridSize 6 [s] = some [6]) ∧
    ∃ w h : ℕ, findGridSize 6 [4, 6] = some [w, h] ∧ w * h = 6 ∧
      ∀ i j : ℕ, 1 ≤ i → i * j = 6 →
        |gridRatio 4 6 w h - 1| ≤ |gridRatio 4 6 i j - 1| :=
  find_grid_size_aspect_optimal 6 4 6 (by norm_num) (by norm_num)

theorem recLEb_true_t (a b : UpdateRecord) (h : recLEb a b = true) :
    a.t ≤ b.t := by
  unfold recLEb at h
  by_cases h1 : a.t ≠ b.t
  · rw [if_pos h1] at h
    exact le_of_lt (of_decide_eq_true h)
  · push_neg at h1
    exact le_of_eq h1

theorem recLEb_false_t (a b : UpdateRecord) (h : recLEb a b = false) :
    b.t ≤ a.t := by
  unfold recLEb at h
  by_cases h1 : a.t ≠ b.t
  · rw [if_pos h1] at h
    exact le_of_not_lt (of_decide_eq_false h)
  · push_neg at h1
    exact le_of_eq h1.symm

theorem insertRec_perm (r : UpdateRecord) (l : List UpdateRecord) :
    (insertRec r l).Perm (r :: l) := by
  induction l with
  | nil => exact List.Perm.refl _
  | cons x xs ih =>
    unfold insertRec
    by_cases h : recLEb r x = true
    · rw [if_pos h]
    · rw [if_neg h]
      exact (List.Perm.cons x ih).trans (List.Perm.swap r x xs)

theorem sortRecords_perm (l : List UpdateRecord) : (sortRecords l).Perm l := by
  induction l with
  | nil => exact List.Perm.refl _
  | cons x xs ih => exact (insertRec_perm x (sortRecords xs)).trans (ih.cons x)

theorem mem_insertRec (y r : UpdateRecord) (l : List UpdateRecord)
    (h : y ∈ insertRec r l) : y = r ∨ y ∈ l :=
  List.mem_cons.mp ((insertRec_perm r l).mem_iff.mp h)

theorem pairwise_insertRec (r : UpdateRecord) (l : List UpdateRecord)
    (h : l.Pairwise (fun a b => a.t ≤ b.t)) :
    (insertRec r l).Pairwise (fun a b => a.t ≤ b.t) := by
  induction l with
  | nil => simp [insertRec]
  | cons x xs ih =>
    rw [List.pairwise_cons] at h
    obtain ⟨hx, hxs⟩ := h
    unfold insertRec
    by_cases hrx : recLEb r x = true
    · rw [if_pos hrx]
      refine List.Pairwise.cons ?_ (List.Pairwise.cons hx hxs)
      intro y hy
      rcases List.mem_cons.mp hy with rfl | hy'
      · exact recLEb_true_t r y hrx
      · exact le_trans (recLEb_true_t r x hrx) (hx y hy')
    · rw [if_neg hrx]
      rw [Bool.not_eq_true] at hrx
      refine List.Pairwise.cons ?_ (ih hxs)
      intro y hy
      rcases mem_insertRec y r xs hy with rfl | hy'
      · exact recLEb_false_t y x hrx
      · exact hx y hy'

theorem sortRecords_pairwise (l : List UpdateRecord) :
    (sortRecords l).Pairwise (fun a b => a.t ≤ b.t) := by
  induction l with
  | nil => exact List.Pairwise.nil
  | cons x xs ih => exact pairwise_insertRec x (sortRecords xs) ih

theorem replayStep_toSpec (costF : (ℕ → List ℕ → ℚ) → ℚ) (st : ReplayState)
    (r : UpdateRecord) (h : st.nextCost = 2 ^ st.pobj.length) :
    (replayStep costF st r).toSpec = replayStepSpec costF st.toSpec r ∧
    (replayStep costF st r).nextCost =
      2 ^ (replayStep costF st r).pobj.length := by
  unfold replayStep replayStepSpec ReplayState.toSpec
  by_cases hc : st.nextCost ≤ st.upII + (r.ii - st.lastII r.rank)
  · rw [if_pos hc, if_pos (show (2 : ℤ) ^ st.pobj.length ≤ _ from h ▸ hc)]
    refine ⟨rfl, ?_⟩
    simp only [List.length_append, List.length_cons, List.length_nil, h,
      pow_succ]
  · rw [if_neg hc, if_neg (show ¬(2 : ℤ) ^ st.pobj.length ≤ _ from h ▸ hc)]
    exact ⟨rfl, h⟩

theorem replay_foldl_toSpec (costF : (ℕ → List ℕ → ℚ) → ℚ)
    (s : List UpdateRecord) :
    ∀ st : ReplayState, st.nextCost = 2 ^ st.pobj.length →
      (s.foldl (replayStep costF) st).toSpec =
        s.foldl (replayStepSpec costF) st.toSpec ∧
      (s.foldl (replayStep costF) st).nextCost =
        2 ^ (s.foldl (replayStep costF) st).pobj.length := by
  induction s with
  | nil => exact fun st h => ⟨rfl, h⟩
  | cons r rs ih =>
    intro st h
    simp only [List.foldl_cons]
    obtain ⟨h1, h2⟩ := replayStep_toSpec costF st r h
    obtain ⟨h3, h4⟩ := ih (replayStep costF st r) h2
    exact ⟨by rw [h3, h1], h4⟩

theorem reconstruct_pobj_eq_spec (costF : (ℕ → List ℕ → ℚ) → ℚ)
    (z0 : Option (ℕ → List ℕ → ℚ)) (log : List UpdateRecord) :
    reconstruct_pobj costF z0 log =
      reconstructPobjSpec costF (z0.getD (fun _ _ => 0)) (sortRecords log) := by
  have h1 : ((sortRecords log).foldl (replayStepSpec costF)
      { z := z0.getD (fun _ _ => 0), upII := 0, lastII := fun _ => 0,
        pobj := [] }) =
      ReplayState.toSpec ((sortRecords log).foldl (replayStep costF)
        { z := z0.getD (fun _ _ => 0), upII := 0, lastII := fun _ => 0,
          nextCost := 1, pobj := [] }) :=
    ((replay_foldl_toSpec costF (sortRecords log)
      { z := z0.getD (fun _ _ => 0), upII := 0, lastII := fun _ => 0,
        nextCost := 1, pobj := [] } (by norm_num)).1).symm
  simp only [reconstruct_pobj, reconstructPobjSpec]
  rw [h1]
  rfl

/-- C8: when `timing` is false the returned cost curve is `None`; when it
is true, `reconstruct_pobj` replays the log in an order that is a
permutation of the gathered records sorted by ascending timestamp,
applying each `dz` onto `z` (initialized from `z0` or zeros) and
recording an `(update_count, t_update, cost)` checkpoint whenever the
accumulated update count reaches the next power of 2, plus one final
checkpoint. -/
theorem dicod_timing_reconstruction (costF : (ℕ → List ℕ → ℚ) → ℚ)
    (z0 : Option (ℕ → List ℕ → ℚ)) (log : List UpdateRecord)
    (hne : log ≠ []) :
    dicod_p_obj false costF z0 log = none ∧
    ∃ s : List UpdateRecord, s.Perm log ∧
      s.Pairwise (fun a b => a.t ≤ b.t) ∧
      dicod_p_obj true costF z0 log =
        some (reconstructPobjSpec costF (z0.getD (fun _ _ => 0)) s) := by
  refine ⟨rfl, sortRecords log, sortRecords_perm log,
    sortRecords_pairwise log, ?_⟩
  unfold dicod_p_obj
  rw [if_pos rfl]
  exact congrArg some (reconstruct_pobj_eq_spec costF z0 log)

/-- Witness for C8 at a one-record log. -/
theorem dicod_timing_reconstruction_witness :
    dicod_p_obj false (fun _ => 0) none
      [{ t := 1, ii := 1, rank := 0, k0 := 0, pt0 := [0], dz := 1 }] = none ∧
    ∃ s : List UpdateRecord,
      s.Perm [{ t := 1, ii := 1, rank := 0, k0 := 0, pt0 := [0], dz := 1 }] ∧
      s.Pairwise (fun a b => a.t ≤ b.t) ∧
      dicod_p_obj true (fun _ => 0) none
        [{ t := 1, ii := 1, rank := 0, k0 := 0, pt0 := [0], dz := 1 }] =
        some (reconstructPobjSpec (fun _ => 0)
          ((none : Option (ℕ → List ℕ → ℚ)).getD (fun _ _ => 0)) s) :=
  dicod_timing_reconstruction (fun _ => 0) none
    [{ t := 1, ii := 1, rank := 0, k0 := 0, pt0 := [0], dz := 1 }]
    (List.cons_ne_nil _ _)

end Dicod
